import Mathlib

/-!
# Verification of `MatterServer` (packages/matter.js/src/MatterServer.ts)

A shallow embedding of the `MatterServer` orchestrator class: registration of
commissioning-server / commissioning-controller nodes, the `start()` sequencing
loop and the `close()` teardown loop.

Effects on collaborators (`setStorage`, `setMdnsBroadcaster`, `setMdnsScanner`,
`advertise`, `connect`, `close`) are recorded as an event trace, and a thrown
exception is modelled as an early return carrying the trace produced so far.
Outcomes of collaborator calls that may throw (the async `MdnsBroadcaster.create`
and `MdnsScanner.create` factories, `advertise`, `connect`, `node.close`) are
supplied by Boolean oracle fields stored alongside each node's real data
(`port`, `delayedAnnouncement`, `delayedPairing`); theorems quantify over all
oracle values, so they cover every pattern of collaborator success and failure.
-/

/-- A `CommissioningServer` node as seen by `MatterServer`: its listening port
(`getPort()`), its `delayedAnnouncement` flag, and oracle fields giving the
outcome of the collaborator calls made on its behalf during `start()`/`close()`
(`MdnsBroadcaster.create`, `MdnsScanner.create`, `advertise()`, `close()`). -/
structure CommissioningServer where
  port : Nat
  delayedAnnouncement : Bool
  bcastCreateFails : Bool
  scannerCreateFails : Bool
  advertiseFails : Bool
  closeFails : Bool
deriving DecidableEq, Repr

/-- A `CommissioningController` node as seen by `MatterServer`: its
`delayedPairing` flag and oracle fields for the collaborator calls made on its
behalf (`MdnsScanner.create`, `connect()`, `close()`). -/
structure CommissioningController where
  delayedPairing : Bool
  scannerCreateFails : Bool
  connectFails : Bool
  closeFails : Bool
deriving DecidableEq, Repr

/-- A registered node: the `MatterNode` union, discriminated at runtime in the
source by `instanceof CommissioningServer` / `instanceof CommissioningController`. -/
inductive MatterNode
  | server (cs : CommissioningServer)
  | controller (cc : CommissioningController)
deriving DecidableEq, Repr

/-- Whether `node.close()` throws, read from the variant's oracle field. -/
def nodeCloseFails : MatterNode → Bool
  | .server cs => cs.closeFails
  | .controller cc => cc.closeFails

/-- The `NodeOptions` type: one optional field `uniqueNodeId`. -/
structure NodeOptions where
  uniqueNodeId : Option String
deriving DecidableEq, Repr

/-- The two errors thrown by the registration methods:
`"Only one node is allowed for now"` and
`"Port N is already in use by other node"`. -/
inductive RegError
  | RegistrationCapacityExceeded
  | PortConflict (port : Nat)
deriving DecidableEq, Repr

/-- An observable call on a collaborator, indexed by the storage-context id
(for `setStorage`) or by the position of the target node in the registry. -/
inductive Event
  | setStorage (id : String)
  | setMdnsBroadcaster (i : Nat)
  | setMdnsScanner (i : Nat)
  | advertise (i : Nat)
  | connect (i : Nat)
  | closeNode (i : Nat)
deriving DecidableEq, Repr

/-- The registry position an event is about, `none` for `setStorage`. -/
def Event.nodeIdx? : Event → Option Nat
  | .setStorage _ => none
  | .setMdnsBroadcaster i => some i
  | .setMdnsScanner i => some i
  | .advertise i => some i
  | .connect i => some i
  | .closeNode i => some i

/-- The `MatterServer` state: the private `nodes` array, in insertion order. -/
structure MatterServer where
  nodes : List MatterNode
deriving DecidableEq, Repr

/-- The port-collision loop of `addCommissioningServer`: walk the registered
nodes, and for each `CommissioningServer` look its port up in `portCheckMap`
(modelled by the list of keys seen so far), throwing on a hit. -/
def portCheckLoop : List MatterNode → List Nat → Option RegError
  | [], _ => none
  | .server node :: rest, seen =>
    if node.port ∈ seen then some (RegError.PortConflict node.port)
    else portCheckLoop rest (node.port :: seen)
  | .controller _ :: rest, seen => portCheckLoop rest seen

/-- The storage-context id handed to `storageManager.createContext`:
`nodeOptions?.uniqueNodeId ?? this.nodes.length.toString()`. -/
def storageId (s : MatterServer) (opts : Option NodeOptions) : String :=
  (opts.bind NodeOptions.uniqueNodeId).getD (toString s.nodes.length)

/-- `MatterServer.addCommissioningServer`: throw if a node is already
registered, run the port-collision loop over the registered nodes, then call
`setStorage` with a fresh context and push the node. The result is the state
after the call, the trace of collaborator calls made, and the thrown error if
any. -/
def addCommissioningServer (s : MatterServer) (cs : CommissioningServer)
    (opts : Option NodeOptions) : MatterServer × List Event × Option RegError :=
  if s.nodes.length > 0 then
    (s, [], some RegError.RegistrationCapacityExceeded)
  else
    match portCheckLoop s.nodes [] with
    | some e => (s, [], some e)
    | none =>
      (⟨s.nodes ++ [MatterNode.server cs]⟩, [Event.setStorage (storageId s opts)], none)

/-- `MatterServer.addCommissioningController`: throw if a node is already
registered, then call `setStorage` with a fresh context and push the node. -/
def addCommissioningController (s : MatterServer) (cc : CommissioningController)
    (opts : Option NodeOptions) : MatterServer × List Event × Option RegError :=
  if s.nodes.length > 0 then
    (s, [], some RegError.RegistrationCapacityExceeded)
  else
    (⟨s.nodes ++ [MatterNode.controller cc]⟩, [Event.setStorage (storageId s opts)], none)

/-- One iteration of the `start()` loop, for the node at registry position `i`:
the trace of calls made on its behalf and whether the iteration completed
without a throw. A `CommissioningServer` gets `setMdnsBroadcaster` (after the
awaited `MdnsBroadcaster.create`), then `setMdnsScanner` (after the awaited
`MdnsScanner.create`), then `advertise()` unless `delayedAnnouncement`; a
`CommissioningController` gets `setMdnsScanner`, then `connect()` unless
`delayedPairing`. A call that throws still appears in the trace, but nothing
after it does. -/
def startNode (i : Nat) : MatterNode → List Event × Bool
  | .server cs =>
    if cs.bcastCreateFails then ([], false)
    else if cs.scannerCreateFails then ([Event.setMdnsBroadcaster i], false)
    else if cs.delayedAnnouncement then
      ([Event.setMdnsBroadcaster i, Event.setMdnsScanner i], true)
    else if cs.advertiseFails then
      ([Event.setMdnsBroadcaster i, Event.setMdnsScanner i, Event.advertise i], false)
    else ([Event.setMdnsBroadcaster i, Event.setMdnsScanner i, Event.advertise i], true)
  | .controller cc =>
    if cc.scannerCreateFails then ([], false)
    else if cc.delayedPairing then ([Event.setMdnsScanner i], true)
    else if cc.connectFails then ([Event.setMdnsScanner i, Event.connect i], false)
    else ([Event.setMdnsScanner i, Event.connect i], true)

/-- The `start()` loop over the tail of the registry whose first node sits at
registry position `k`: nodes are processed strictly in order, and a throw in
one iteration aborts the loop, returning the trace so far and `false`. -/
def startRun (k : Nat) : List MatterNode → List Event × Bool
  | [] => ([], true)
  | n :: rest =>
    if (startNode k n).2 then
      ((startNode k n).1 ++ (startRun (k + 1) rest).1, (startRun (k + 1) rest).2)
    else ((startNode k n).1, false)

/-- `MatterServer.start()`: run the loop over the whole registry. `start`
mutates no registry state, so the result is just the trace and the success
flag. -/
def MatterServer.start (s : MatterServer) : List Event × Bool :=
  startRun 0 s.nodes

/-- The `close()` loop over the tail of the registry whose first node sits at
registry position `k`: `await node.close()` on each node in order; a throw
aborts the loop. -/
def closeRun (k : Nat) : List MatterNode → List Event × Bool
  | [] => ([], true)
  | n :: rest =>
    if nodeCloseFails n then ([Event.closeNode k], false)
    else (Event.closeNode k :: (closeRun (k + 1) rest).1, (closeRun (k + 1) rest).2)

/-- `MatterServer.close()`: run the close loop over the whole registry. The
method reads `this.nodes` but never writes it, so the post-state is the
pre-state unchanged. -/
def MatterServer.close (s : MatterServer) : MatterServer × List Event × Bool :=
  (s, closeRun 0 s.nodes)

section Lemmas

/-- Every event produced for the node at position `k` is indexed by `k`. -/
lemma startNode_idx {k : Nat} {n : MatterNode} :
    ∀ e ∈ (startNode k n).1, Event.nodeIdx? e = some k := by
  cases n <;> simp only [startNode] <;> split_ifs <;>
    simp [Event.nodeIdx?]

/-- Every event in a `startRun` trace comes from the iteration of some node of
the list, processed at its registry position. -/
lemma startRun_mem_node {e : Event} :
    ∀ (ns : List MatterNode) (k : Nat), e ∈ (startRun k ns).1 →
      ∃ j n, ns.get? j = some n ∧ e ∈ (startNode (k + j) n).1
  | [], k, h => by simp [startRun] at h
  | n :: rest, k, h => by
    rw [startRun] at h
    by_cases hok : (startNode k n).2
    · rw [if_pos hok] at h
      rcases List.mem_append.mp h with hl | hr
      · exact ⟨0, n, rfl, by simpa using hl⟩
      · obtain ⟨j, m, hget, hmem⟩ := startRun_mem_node rest (k + 1) hr
        exact ⟨j + 1, m, by simpa using hget, by
          have : k + (j + 1) = k + 1 + j := by omega
          rw [this]; exact hmem⟩
    · rw [if_neg hok] at h
      exact ⟨0, n, rfl, by simpa using h⟩

/-- If an `advertise` event appears in a node's iteration, the node is a
`CommissioningServer` at that position, its `delayedAnnouncement` flag is off,
and the iteration's trace is broadcaster injection, scanner injection, then
`advertise`, in that order. -/
lemma startNode_advertise_shape {i k : Nat} {n : MatterNode}
    (h : Event.advertise i ∈ (startNode k n).1) :
    i = k ∧ ∃ cs, n = MatterNode.server cs ∧ cs.delayedAnnouncement = false ∧
      (startNode k n).1 =
        [Event.setMdnsBroadcaster k, Event.setMdnsScanner k, Event.advertise k] := by
  cases n with
  | server cs =>
    revert h
    simp only [startNode]
    split_ifs with h1 h2 h3 h4 <;> simp_all
  | controller cc =>
    revert h
    simp only [startNode]
    split_ifs <;> simp_all

/-- If a `connect` event appears in a node's iteration, the node is a
`CommissioningController` at that position, its `delayedPairing` flag is off,
and the iteration's trace is scanner injection then `connect`, in that order. -/
lemma startNode_connect_shape {i k : Nat} {n : MatterNode}
    (h : Event.connect i ∈ (startNode k n).1) :
    i = k ∧ ∃ cc, n = MatterNode.controller cc ∧ cc.delayedPairing = false ∧
      (startNode k n).1 = [Event.setMdnsScanner k, Event.connect k] := by
  cases n with
  | server cs =>
    revert h
    simp only [startNode]
    split_ifs <;> simp_all
  | controller cc =>
    revert h
    simp only [startNode]
    split_ifs <;> simp_all

/-- A `setMdnsBroadcaster` event only arises from a `CommissioningServer`
iteration at that position. -/
lemma startNode_bcast_shape {i k : Nat} {n : MatterNode}
    (h : Event.setMdnsBroadcaster i ∈ (startNode k n).1) :
    i = k ∧ ∃ cs, n = MatterNode.server cs := by
  cases n with
  | server cs =>
    revert h
    simp only [startNode]
    split_ifs <;> simp_all
  | controller cc =>
    revert h
    simp only [startNode]
    split_ifs <;> simp_all

/-- Whenever `advertise` on node `i` appears in a `startRun` trace, the trace
splits around it with both of node `i`'s discovery injections strictly
earlier. -/
lemma startRun_advertise_split :
    ∀ (ns : List MatterNode) (k i : Nat), Event.advertise i ∈ (startRun k ns).1 →
      ∃ l1 l2, (startRun k ns).1 = l1 ++ Event.advertise i :: l2 ∧
        Event.setMdnsBroadcaster i ∈ l1 ∧ Event.setMdnsScanner i ∈ l1
  | [], k, i, h => by simp [startRun] at h
  | n :: rest, k, i, h => by
    rw [startRun] at h ⊢
    by_cases hok : (startNode k n).2
    · rw [if_pos hok] at h ⊢
      rcases List.mem_append.mp h with hl | hr
      · obtain ⟨hik, cs, hn, hdel, hshape⟩ := startNode_advertise_shape hl
        subst hik
        refine ⟨[Event.setMdnsBroadcaster i, Event.setMdnsScanner i],
          (startRun (i + 1) rest).1, ?_, by simp, by simp⟩
        rw [hshape]; simp
      · obtain ⟨l1, l2, heq, hb, hs⟩ := startRun_advertise_split rest (k + 1) i hr
        exact ⟨(startNode k n).1 ++ l1, l2, by rw [heq]; simp,
          List.mem_append_right _ hb, List.mem_append_right _ hs⟩
    · rw [if_neg hok] at h ⊢
      obtain ⟨hik, cs, hn, hdel, hshape⟩ := startNode_advertise_shape h
      subst hik
      exact ⟨[Event.setMdnsBroadcaster i, Event.setMdnsScanner i], [],
        by rw [hshape]; rfl, by simp, by simp⟩

/-- Whenever `connect` on node `i` appears in a `startRun` trace, the trace
splits around it with node `i`'s scanner injection strictly earlier. -/
lemma startRun_connect_split :
    ∀ (ns : List MatterNode) (k i : Nat), Event.connect i ∈ (startRun k ns).1 →
      ∃ l1 l2, (startRun k ns).1 = l1 ++ Event.connect i :: l2 ∧
        Event.setMdnsScanner i ∈ l1
  | [], k, i, h => by simp [startRun] at h
  | n :: rest, k, i, h => by
    rw [startRun] at h ⊢
    by_cases hok : (startNode k n).2
    · rw [if_pos hok] at h ⊢
      rcases List.mem_append.mp h with hl | hr
      · obtain ⟨hik, cc, hn, hdel, hshape⟩ := startNode_connect_shape hl
        subst hik
        refine ⟨[Event.setMdnsScanner i], (startRun (i + 1) rest).1, ?_, by simp⟩
        rw [hshape]; simp
      · obtain ⟨l1, l2, heq, hs⟩ := startRun_connect_split rest (k + 1) i hr
        exact ⟨(startNode k n).1 ++ l1, l2, by rw [heq]; simp,
          List.mem_append_right _ hs⟩
    · rw [if_neg hok] at h ⊢
      obtain ⟨hik, cc, hn, hdel, hshape⟩ := startNode_connect_shape h
      subst hik
      exact ⟨[Event.setMdnsScanner i], [], by rw [hshape]; rfl, by simp⟩

/-- When every iteration of a prefix succeeds, the loop over an extended list
is the loop over the prefix followed by the loop over the extension, started at
the shifted position. -/
lemma startRun_append :
    ∀ (pre ns2 : List MatterNode) (k : Nat), (startRun k pre).2 = true →
      startRun k (pre ++ ns2) =
        ((startRun k pre).1 ++ (startRun (k + pre.length) ns2).1,
          (startRun (k + pre.length) ns2).2)
  | [], ns2, k, _ => by simp [startRun]
  | p :: pre', ns2, k, hok => by
    rw [startRun] at hok
    by_cases hp : (startNode k p).2
    · rw [if_pos hp] at hok
      have ih := startRun_append pre' ns2 (k + 1) hok
      show startRun k (p :: (pre' ++ ns2)) = _
      rw [startRun, if_pos hp, ih, startRun, if_pos hp]
      have hlen : k + 1 + pre'.length = k + (p :: pre').length := by
        simp [List.length_cons]; omega
      rw [hlen]
      simp
    · rw [if_neg hp] at hok
      simp at hok

/-- When every `close()` in the list succeeds, the close loop visits every node
in order and completes. -/
lemma closeRun_all_ok :
    ∀ (ns : List MatterNode) (k : Nat), (∀ n ∈ ns, nodeCloseFails n = false) →
      closeRun k ns = ((List.range ns.length).map (fun j => Event.closeNode (k + j)), true)
  | [], k, _ => by simp [closeRun]
  | n :: rest, k, h => by
    have hn : nodeCloseFails n = false := h n (List.mem_cons_self n rest)
    have ih := closeRun_all_ok rest (k + 1) (fun m hm => h m (List.mem_cons_of_mem n hm))
    rw [closeRun, if_neg (by simp [hn]), ih]
    simp [List.range_succ_eq_map, List.map_map, Function.comp]
    intro a _
    omega

/-- When the node at position `j` is the first whose `close()` throws, the
close loop visits exactly nodes `0..j` in order and then aborts with the
error. -/
lemma closeRun_first_fail :
    ∀ (ns : List MatterNode) (k j : Nat) (n : MatterNode), ns.get? j = some n →
      nodeCloseFails n = true →
      (∀ m nm, m < j → ns.get? m = some nm → nodeCloseFails nm = false) →
      closeRun k ns = ((List.range (j + 1)).map (fun i => Event.closeNode (k + i)), false)
  | [], k, j, n, hget, _, _ => by simp at hget
  | hd :: rest, k, 0, n, hget, hfail, _ => by
    simp at hget
    subst hget
    rw [closeRun, if_pos (by simp [hfail])]
    simp [List.range_succ]
  | hd :: rest, k, j + 1, n, hget, hfail, hmin => by
    have hhd : nodeCloseFails hd = false := hmin 0 hd (Nat.succ_pos j) rfl
    have ih := closeRun_first_fail rest (k + 1) j n (by simpa using hget) hfail
      (fun m nm hm hgm => hmin (m + 1) nm (by omega) (by simpa using hgm))
    rw [closeRun, if_neg (by simp [hhd]), ih]
    simp [List.range_succ_eq_map, List.map_map, Function.comp]
    intro a _
    omega

/-- Every event in a close-loop trace is a `closeNode` event. -/
lemma closeRun_mem :
    ∀ (ns : List MatterNode) (k : Nat) (e : Event), e ∈ (closeRun k ns).1 →
      ∃ j, e = Event.closeNode j
  | [], k, e, h => by simp [closeRun] at h
  | n :: rest, k, e, h => by
    rw [closeRun] at h
    by_cases hf : nodeCloseFails n
    · rw [if_pos hf] at h
      simp at h
      exact ⟨k, h⟩
    · rw [if_neg hf] at h
      rcases List.mem_cons.mp h with hl | hr
      · exact ⟨k, hl⟩
      · exact closeRun_mem rest (k + 1) e hr

end Lemmas

/-- **C9.** `close()` never removes entries from the registry: whether the
close loop completes or fails, the post-state registry holds exactly the same
nodes in the same order as before the call. -/
theorem close_preserves_registry (s : MatterServer) :
    (MatterServer.close s).1.nodes = s.nodes := rfl

/-- **C1.** With one node already registered, registering a second node of
either variant throws the capacity error, and the failure precedes any
mutation: the registry still holds exactly the original node, and no storage
context is created or injected (the trace of collaborator calls is empty). -/
theorem second_registration_rejected (s : MatterServer) (cs : CommissioningServer)
    (cc : CommissioningController) (opts : Option NodeOptions)
    (h : s.nodes.length = 1) :
    addCommissioningServer s cs opts = (s, [], some RegError.RegistrationCapacityExceeded) ∧
    addCommissioningController s cc opts =
      (s, [], some RegError.RegistrationCapacityExceeded) := by
  constructor <;> simp [addCommissioningServer, addCommissioningController, h]

/-- Witness for C1: a registry holding one controller rejects a server and a
controller alike, unchanged and with an empty trace. -/
theorem second_registration_rejected_witness :
    (MatterServer.mk [MatterNode.controller ⟨false, false, false, false⟩]).nodes.length = 1 ∧
    addCommissioningServer ⟨[MatterNode.controller ⟨false, false, false, false⟩]⟩
        ⟨5540, false, false, false, false, false⟩ none =
      (⟨[MatterNode.controller ⟨false, false, false, false⟩]⟩, [],
        some RegError.RegistrationCapacityExceeded) ∧
    addCommissioningController ⟨[MatterNode.controller ⟨false, false, false, false⟩]⟩
        ⟨true, false, false, false⟩ none =
      (⟨[MatterNode.controller ⟨false, false, false, false⟩]⟩, [],
        some RegError.RegistrationCapacityExceeded) :=
  ⟨rfl, second_registration_rejected _ _ _ none rfl⟩

/-- Counterexample to C2 as stated: with an Advertiser on port 5540 already
registered, registering a second Advertiser on the same port 5540 throws the
capacity error, not `PortConflict` — the capacity check runs first. -/
theorem duplicate_port_registration_counterexample :
    (addCommissioningServer
        (addCommissioningServer ⟨[]⟩ ⟨5540, false, false, false, false, false⟩ none).1
        ⟨5540, false, false, false, false, false⟩ none).2.2 =
      some RegError.RegistrationCapacityExceeded ∧
    (addCommissioningServer
        (addCommissioningServer ⟨[]⟩ ⟨5540, false, false, false, false, false⟩ none).1
        ⟨5540, false, false, false, false, false⟩ none).2.2 ≠
      some (RegError.PortConflict 5540) := by decide

/-- **C2 (amended).** Registering a second Advertiser — duplicate port or not —
fails with the capacity error: the capacity check runs before the port check,
and since the port check only inspects the (then empty) registry, no
registration call ever throws `PortConflict`. -/
theorem capacity_check_precedes_port_check (s : MatterServer) (cs : CommissioningServer)
    (opts : Option NodeOptions) (p : Nat) :
    (s.nodes ≠ [] →
      addCommissioningServer s cs opts =
        (s, [], some RegError.RegistrationCapacityExceeded)) ∧
    (addCommissioningServer s cs opts).2.2 ≠ some (RegError.PortConflict p) := by
  constructor
  · intro hne
    have hlen : s.nodes.length > 0 := List.length_pos.mpr hne
    simp [addCommissioningServer, hlen]
  · rcases hs : s.nodes with _ | ⟨n, rest⟩
    · simp [addCommissioningServer, hs, portCheckLoop]
    · simp [addCommissioningServer, hs]

/-- Witness for the amended C2: a second Advertiser on the occupied port 5540
is rejected with the capacity error and `PortConflict 5540` is not raised. -/
theorem capacity_check_precedes_port_check_witness :
    (MatterServer.mk [MatterNode.server ⟨5540, false, false, false, false, false⟩]).nodes ≠ [] ∧
    addCommissioningServer ⟨[MatterNode.server ⟨5540, false, false, false, false, false⟩]⟩
        ⟨5540, true, false, false, false, false⟩ none =
      (⟨[MatterNode.server ⟨5540, false, false, false, false, false⟩]⟩, [],
        some RegError.RegistrationCapacityExceeded) ∧
    (addCommissioningServer ⟨[MatterNode.server ⟨5540, false, false, false, false, false⟩]⟩
        ⟨5540, true, false, false, false, false⟩ none).2.2 ≠
      some (RegError.PortConflict 5540) :=
  ⟨by decide,
    (capacity_check_precedes_port_check _ _ none 5540).1 (by decide),
    (capacity_check_precedes_port_check _ _ none 5540).2⟩

/-- Counterexample to C3 as stated: on a two-node registry whose first node's
`close()` throws, the loop aborts — the second node's `close()` is never
invoked, so close is not best-effort. -/
theorem close_not_best_effort_counterexample :
    MatterServer.close ⟨[MatterNode.controller ⟨false, false, false, true⟩,
        MatterNode.controller ⟨false, false, false, false⟩]⟩ =
      (⟨[MatterNode.controller ⟨false, false, false, true⟩,
        MatterNode.controller ⟨false, false, false, false⟩]⟩, [Event.closeNode 0], false) ∧
    Event.closeNode 1 ∉
      (MatterServer.close ⟨[MatterNode.controller ⟨false, false, false, true⟩,
        MatterNode.controller ⟨false, false, false, false⟩]⟩).2.1 := by decide

/-- **C3 (amended).** `close()` invokes the registered nodes' close operations
in registration order but stops at the first one that fails, propagating that
error; only when every close succeeds is each node's close invoked exactly
once, in registration order. -/
theorem close_in_order_until_first_failure (ns : List MatterNode) :
    ((∀ n ∈ ns, nodeCloseFails n = false) →
      MatterServer.close ⟨ns⟩ = (⟨ns⟩, (List.range ns.length).map Event.closeNode, true)) ∧
    (∀ j n, ns.get? j = some n → nodeCloseFails n = true →
      (∀ m nm, m < j → ns.get? m = some nm → nodeCloseFails nm = false) →
      MatterServer.close ⟨ns⟩ =
        (⟨ns⟩, (List.range (j + 1)).map Event.closeNode, false)) := by
  constructor
  · intro h
    have h0 := closeRun_all_ok ns 0 h
    simp only [Nat.zero_add] at h0
    simp [MatterServer.close, h0]
  · intro j n hget hfail hmin
    have h0 := closeRun_first_fail ns 0 j n hget hfail hmin
    simp only [Nat.zero_add] at h0
    simp [MatterServer.close, h0]

/-- Witness for the amended C3: on a one-node registry whose close succeeds,
`close()` invokes exactly that node's close and completes. -/
theorem close_in_order_until_first_failure_witness :
    MatterServer.close ⟨[MatterNode.server ⟨5540, false, false, false, false, false⟩]⟩ =
      (⟨[MatterNode.server ⟨5540, false, false, false, false, false⟩]⟩,
        (List.range 1).map Event.closeNode, true) :=
  (close_in_order_until_first_failure _).1 (by decide)

/-- **C4.** In any `start()` trace, a node's default action only ever appears
after that node's discovery-service injections (`setMdnsBroadcaster` and
`setMdnsScanner` for an Advertiser, `setMdnsScanner` for a Connector), and a
node whose deferred flag is set never has its default action invoked. -/
theorem start_injects_before_default_action (s : MatterServer) (i : Nat) :
    (∀ cs, s.nodes.get? i = some (MatterNode.server cs) → cs.delayedAnnouncement = true →
      Event.advertise i ∉ (MatterServer.start s).1) ∧
    (∀ cc, s.nodes.get? i = some (MatterNode.controller cc) → cc.delayedPairing = true →
      Event.connect i ∉ (MatterServer.start s).1) ∧
    (Event.advertise i ∈ (MatterServer.start s).1 →
      ∃ l1 l2, (MatterServer.start s).1 = l1 ++ Event.advertise i :: l2 ∧
        Event.setMdnsBroadcaster i ∈ l1 ∧ Event.setMdnsScanner i ∈ l1) ∧
    (Event.connect i ∈ (MatterServer.start s).1 →
      ∃ l1 l2, (MatterServer.start s).1 = l1 ++ Event.connect i :: l2 ∧
        Event.setMdnsScanner i ∈ l1) := by
  refine ⟨?_, ?_, ?_, ?_⟩
  · intro cs hget hdel hmem
    obtain ⟨j, n, hgj, hmn⟩ := startRun_mem_node s.nodes 0 hmem
    obtain ⟨hik, cs', hn, hdel', _⟩ := startNode_advertise_shape hmn
    have hji : j = i := by omega
    subst hji
    rw [hn, hget] at hgj
    simp at hgj
    rw [← hgj, hdel] at hdel'
    exact Bool.noConfusion hdel'
  · intro cc hget hdel hmem
    obtain ⟨j, n, hgj, hmn⟩ := startRun_mem_node s.nodes 0 hmem
    obtain ⟨hik, cc', hn, hdel', _⟩ := startNode_connect_shape hmn
    have hji : j = i := by omega
    subst hji
    rw [hn, hget] at hgj
    simp at hgj
    rw [← hgj, hdel] at hdel'
    exact Bool.noConfusion hdel'
  · exact startRun_advertise_split s.nodes 0 i
  · exact startRun_connect_split s.nodes 0 i

/-- Witness for C4: an Advertiser registered with `delayedAnnouncement` set is
never told to advertise by `start()`. -/
theorem start_injects_before_default_action_witness :
    Event.advertise 0 ∉
      (MatterServer.start ⟨[MatterNode.server ⟨5540, true, false, false, false, false⟩]⟩).1 :=
  (start_injects_before_default_action
    ⟨[MatterNode.server ⟨5540, true, false, false, false, false⟩]⟩ 0).1
    ⟨5540, true, false, false, false, false⟩ rfl rfl

/-- **C5.** The storage-context id passed to the storage manager at
registration is `uniqueNodeId` when the option carries one, and otherwise the
stringified current registry length (so a first node registered without
`uniqueNodeId` gets `"0"`, and one registered with `uniqueNodeId "home"` gets
`"home"`). -/
theorem storage_id_derivation (s : MatterServer) (cs : CommissioningServer)
    (cc : CommissioningController) (opts : Option NodeOptions) (i : String) :
    ((addCommissioningServer s cs opts).2.1 = [Event.setStorage i] →
      (∀ u, opts.bind NodeOptions.uniqueNodeId = some u → i = u) ∧
      (opts.bind NodeOptions.uniqueNodeId = none → i = toString s.nodes.length)) ∧
    ((addCommissioningController s cc opts).2.1 = [Event.setStorage i] →
      (∀ u, opts.bind NodeOptions.uniqueNodeId = some u → i = u) ∧
      (opts.bind NodeOptions.uniqueNodeId = none → i = toString s.nodes.length)) := by
  constructor
  · intro htr
    by_cases h1 : s.nodes.length > 0
    · simp [addCommissioningServer, h1] at htr
    · rcases hpc : portCheckLoop s.nodes [] with _ | e
      · simp [addCommissioningServer, h1, hpc] at htr
        constructor
        · intro u hu
          rw [← htr]
          simp [storageId, hu]
        · intro hn
          rw [← htr]
          simp [storageId, hn]
      · simp [addCommissioningServer, h1, hpc] at htr
  · intro htr
    by_cases h1 : s.nodes.length > 0
    · simp [addCommissioningController, h1] at htr
    · simp [addCommissioningController, h1] at htr
      constructor
      · intro u hu
        rw [← htr]
        simp [storageId, hu]
      · intro hn
        rw [← htr]
        simp [storageId, hn]

/-- Witness for C5: on an empty registry, registering without `uniqueNodeId`
assigns the stringified length `"0"`, and with `uniqueNodeId "home"` assigns
`"home"`. -/
theorem storage_id_derivation_witness :
    ("0" : String) = toString (MatterServer.mk []).nodes.length ∧
    ("home" : String) = "home" :=
  ⟨((storage_id_derivation ⟨[]⟩ ⟨5540, false, false, false, false, false⟩
      ⟨false, false, false, false⟩ none "0").1 (by decide)).2 rfl,
   ((storage_id_derivation ⟨[]⟩ ⟨5540, false, false, false, false, false⟩
      ⟨false, false, false, false⟩ (some ⟨some "home"⟩) "home").2 (by decide)).1 "home" rfl⟩

/-- **C6.** `start()` is fail-fast: when every node before position
`pre.length` started cleanly and the node there hits a collaborator failure,
the whole run stops with exactly the prefix trace plus that node's partial
trace — no further injection or default action for that node or any later
node — and the error propagates (the run does not complete). -/
theorem start_fail_fast (pre : List MatterNode) (n : MatterNode) (post : List MatterNode)
    (hpre : (startRun 0 pre).2 = true)
    (hn : (startNode pre.length n).2 = false) :
    MatterServer.start ⟨pre ++ n :: post⟩ =
      ((startRun 0 pre).1 ++ (startNode pre.length n).1, false) := by
  have happ := startRun_append pre (n :: post) 0 hpre
  simp only [Nat.zero_add] at happ
  show startRun 0 (pre ++ n :: post) = _
  rw [happ, startRun, if_neg (by simp [hn])]

/-- Witness for C6: a Connector whose scanner construction fails aborts the
run before a later registered node sees any injection or action. -/
theorem start_fail_fast_witness :
    (startRun 0 []).2 = true ∧
    (startNode 0 (MatterNode.controller ⟨false, true, false, false⟩)).2 = false ∧
    MatterServer.start ⟨[] ++ MatterNode.controller ⟨false, true, false, false⟩ ::
        [MatterNode.controller ⟨false, false, false, false⟩]⟩ =
      ((startRun 0 []).1 ++
        (startNode 0 (MatterNode.controller ⟨false, true, false, false⟩)).1, false) :=
  ⟨rfl, rfl, start_fail_fast [] _ _ rfl rfl⟩

/-- **C7.** A node's storage context is assigned exactly once, by its
successful registration (one `setStorage` call, with the derived id); a failed
registration performs no `setStorage`, and neither `start()` nor `close()`
ever calls `setStorage`. -/
theorem storage_assigned_only_at_registration (s t : MatterServer)
    (cs : CommissioningServer) (cc : CommissioningController)
    (opts : Option NodeOptions) (e : RegError) (id : String) :
    ((addCommissioningServer s cs opts).2.2 = none →
      (addCommissioningServer s cs opts).2.1 = [Event.setStorage (storageId s opts)]) ∧
    ((addCommissioningServer s cs opts).2.2 = some e →
      (addCommissioningServer s cs opts).2.1 = []) ∧
    ((addCommissioningController s cc opts).2.2 = none →
      (addCommissioningController s cc opts).2.1 = [Event.setStorage (storageId s opts)]) ∧
    ((addCommissioningController s cc opts).2.2 = some e →
      (addCommissioningController s cc opts).2.1 = []) ∧
    Event.setStorage id ∉ (MatterServer.start t).1 ∧
    Event.setStorage id ∉ (MatterServer.close t).2.1 := by
  refine ⟨?_, ?_, ?_, ?_, ?_, ?_⟩
  · intro herr
    by_cases h1 : s.nodes.length > 0
    · simp [addCommissioningServer, h1] at herr
    · rcases hpc : portCheckLoop s.nodes [] with _ | e'
      · simp [addCommissioningServer, h1, hpc]
      · simp [addCommissioningServer, h1, hpc] at herr
  · intro herr
    by_cases h1 : s.nodes.length > 0
    · simp [addCommissioningServer, h1]
    · rcases hpc : portCheckLoop s.nodes [] with _ | e'
      · simp [addCommissioningServer, h1, hpc] at herr
      · simp [addCommissioningServer, h1, hpc]
  · intro herr
    by_cases h1 : s.nodes.length > 0
    · simp [addCommissioningController, h1] at herr
    · simp [addCommissioningController, h1]
  · intro herr
    by_cases h1 : s.nodes.length > 0
    · simp [addCommissioningController, h1]
    · simp [addCommissioningController, h1] at herr
  · intro hmem
    obtain ⟨j, n, _, hmn⟩ := startRun_mem_node t.nodes 0 hmem
    have := startNode_idx _ hmn
    simp [Event.nodeIdx?] at this
  · intro hmem
    obtain ⟨j, hj⟩ := closeRun_mem t.nodes 0 _ hmem
    exact Event.noConfusion hj

/-- Witness for C7: a rejected registration performs no `setStorage`, and a
started one-node registry's trace contains no `setStorage`. -/
theorem storage_assigned_only_at_registration_witness :
    (addCommissioningServer ⟨[MatterNode.controller ⟨false, false, false, false⟩]⟩
      ⟨5540, false, false, false, false, false⟩ none).2.1 = ([] : List Event) ∧
    Event.setStorage "0" ∉
      (MatterServer.start ⟨[MatterNode.server ⟨5540, false, false, false, false, false⟩]⟩).1 :=
  ⟨(storage_assigned_only_at_registration
      ⟨[MatterNode.controller ⟨false, false, false, false⟩]⟩
      ⟨[MatterNode.server ⟨5540, false, false, false, false, false⟩]⟩
      ⟨5540, false, false, false, false, false⟩ ⟨false, false, false, false⟩ none
      RegError.RegistrationCapacityExceeded "0").2.1 (by decide),
   (storage_assigned_only_at_registration
      ⟨[MatterNode.controller ⟨false, false, false, false⟩]⟩
      ⟨[MatterNode.server ⟨5540, false, false, false, false, false⟩]⟩
      ⟨5540, false, false, false, false, false⟩ ⟨false, false, false, false⟩ none
      RegError.RegistrationCapacityExceeded "0").2.2.2.2.1⟩

/-- **C8.** On an empty registry, `close()` succeeds with no effect — no node
operation is invoked and the state is unchanged — and calling it twice in
succession behaves identically. -/
theorem close_empty_idempotent (s : MatterServer) (h : s.nodes = []) :
    MatterServer.close s = (s, [], true) ∧
    MatterServer.close (MatterServer.close s).1 = ((MatterServer.close s).1, [], true) := by
  have h1 : MatterServer.close s = (s, [], true) := by
    simp [MatterServer.close, h, closeRun]
  exact ⟨h1, h1⟩

/-- Witness for C8: the freshly constructed empty server. -/
theorem close_empty_idempotent_witness :
    MatterServer.close ⟨[]⟩ = (⟨[]⟩, [], true) ∧
    MatterServer.close (MatterServer.close ⟨[]⟩).1 =
      ((MatterServer.close ⟨[]⟩).1, [], true) :=
  close_empty_idempotent ⟨[]⟩ rfl

/-- **C10.** `start()` dispatches strictly by variant: a registered Connector
never receives `setMdnsBroadcaster` and is never told to advertise, and a
registered Advertiser is never told to connect. -/
theorem start_dispatches_by_variant (s : MatterServer) (j : Nat)
    (cc : CommissioningController) (cs : CommissioningServer) :
    (s.nodes.get? j = some (MatterNode.controller cc) →
      Event.setMdnsBroadcaster j ∉ (MatterServer.start s).1 ∧
      Event.advertise j ∉ (MatterServer.start s).1) ∧
    (s.nodes.get? j = some (MatterNode.server cs) →
      Event.connect j ∉ (MatterServer.start s).1) := by
  constructor
  · intro hget
    constructor
    · intro hmem
      obtain ⟨j', n, hgj, hmn⟩ := startRun_mem_node s.nodes 0 hmem
      obtain ⟨hik, cs', hn⟩ := startNode_bcast_shape hmn
      have hji : j' = j := by omega
      subst hji
      rw [hn, hget] at hgj
      exact absurd hgj (by simp)
    · intro hmem
      obtain ⟨j', n, hgj, hmn⟩ := startRun_mem_node s.nodes 0 hmem
      obtain ⟨hik, cs', hn, _, _⟩ := startNode_advertise_shape hmn
      have hji : j' = j := by omega
      subst hji
      rw [hn, hget] at hgj
      exact absurd hgj (by simp)
  · intro hget hmem
    obtain ⟨j', n, hgj, hmn⟩ := startRun_mem_node s.nodes 0 hmem
    obtain ⟨hik, cc', hn, _, _⟩ := startNode_connect_shape hmn
    have hji : j' = j := by omega
    subst hji
    rw [hn, hget] at hgj
    exact absurd hgj (by simp)

/-- Witness for C10: a registry holding one Connector is never broadcast-
injected or told to advertise. -/
theorem start_dispatches_by_variant_witness :
    Event.setMdnsBroadcaster 0 ∉
      (MatterServer.start ⟨[MatterNode.controller ⟨false, false, false, false⟩]⟩).1 ∧
    Event.advertise 0 ∉
      (MatterServer.start ⟨[MatterNode.controller ⟨false, false, false, false⟩]⟩).1 :=
  (start_dispatches_by_variant ⟨[MatterNode.controller ⟨false, false, false, false⟩]⟩ 0
    ⟨false, false, false, false⟩ ⟨5540, false, false, false, false, false⟩).1 rfl
